import Mathlib

/-!
Shallow embedding of the Alexupport retrieval-augmented QA agent
(`src/agent/*.py`, `src/utils/utils.py`) and verification of the frozen
claims about it.

Conventions used throughout:
* Python strings are embedded either as Lean `String` (when only built by
  concatenation) or as `List Char` (when the code inspects/transforms the
  characters, so that `str.strip`, `str.upper`, `str.split` become
  structurally recursive Lean functions faithful to Python semantics).
* Calls to external services (the Azure model, the Qdrant index, the file
  system) are nondeterministic inputs; each one is an explicit oracle
  argument.  A Python exception is `Except.error` carrying the message.
* Machine floats only occur as Qdrant similarity scores, which the code
  merely compares against `0.5`; scores are embedded as rationals.
-/

namespace Alexupport

/-! ## Data model -/

/-- One conversation turn, langchain `HumanMessage` / `AIMessage`.
`ConversationBufferMemory.chat_memory.messages` is embedded as `List Msg`. -/
inductive Msg
  | human (content : String)
  | ai (content : String)
deriving DecidableEq, Repr

/-- The text content of a turn. -/
def Msg.content : Msg → String
  | .human c => c
  | .ai c => c

/-- langchain `message.type`: `"human"` for `HumanMessage`, `"ai"` for
`AIMessage`. -/
def Msg.typeStr : Msg → String
  | .human _ => "human"
  | .ai _ => "ai"

/-- A product listing entry, `{"asin": ..., "productTitle": ...}` as built by
`InformationRetriever.list_products`. -/
structure Product where
  asin : String
  productTitle : String
deriving DecidableEq, Repr

/-- The payload of one Qdrant scroll point as `list_products` reads it:
`payload.get("asin")` / `payload.get("productTitle")`, each possibly absent.
A present-but-empty string is also meaningful, since the code tests Python
truthiness (`if asin`, `title or "(untitled)"`). -/
structure PagePoint where
  asin : Option String
  productTitle : Option String
deriving DecidableEq, Repr

/-- The payload of one Qdrant search match as `retrieve_information` reads
it: `result.payload.get("answers", [])` and
`result.payload.get("review_snippets", [])`, each field possibly missing. -/
structure Payload where
  answers : Option (List String)
  review_snippets : Option (List String)
deriving DecidableEq, Repr

/-- One Qdrant search match: a similarity score and a payload.  The float
score is embedded as a rational; the code only compares it with `0.5`. -/
structure ScoredPoint where
  score : ℚ
  payload : Payload
deriving DecidableEq, Repr

/-! ## Python string primitives

The agent code applies `str.strip`, `str.upper`, `str.split` (on newline) and
`re.sub` (whitespace-run collapsing) to model responses.  These are embedded over
`List Char` with the Python semantics. -/

/-- The Python `\s` / `str.strip` whitespace on ASCII text:
space, tab, newline, carriage return, vertical tab, form feed. -/
def pyWs (c : Char) : Bool :=
  c = ' ' || c = '\t' || c = '\n' || c = '\r' ||
    c = Char.ofNat 11 || c = Char.ofNat 12

/-- Python `str.strip()` (both ends) over the character list. -/
def pyStrip (l : List Char) : List Char :=
  ((l.dropWhile pyWs).reverse.dropWhile pyWs).reverse

/-- Right half of `pyStrip`: drop the maximal whitespace suffix. -/
def pyRstrip (l : List Char) : List Char :=
  (l.reverse.dropWhile pyWs).reverse

/-- Python `str.upper()` over the character list (ASCII case mapping; the
agent only ever compares against ASCII literals). -/
def pyUpper (l : List Char) : List Char :=
  l.map Char.toUpper

/-- Python `str.split` with separator newline: split at every newline; `n`
newlines give `n + 1` pieces, so the result is never empty and splitting the
empty string gives `[""]`. -/
def pySplitNl : List Char → List (List Char)
  | [] => [[]]
  | c :: cs =>
    if c = '\n' then [] :: pySplitNl cs
    else
      match pySplitNl cs with
      | [] => [[c]]
      | p :: ps => (c :: p) :: ps

/-- The `re.sub` call of `clean_string`: replace every maximal whitespace
run by a single space. -/
def collapseWs : List Char → List Char
  | [] => []
  | [c] => if pyWs c then [' '] else [c]
  | c :: d :: rest =>
    if pyWs c && pyWs d then collapseWs (d :: rest)
    else (if pyWs c then ' ' else c) :: collapseWs (d :: rest)

/-- `utils.clean_string`: collapse whitespace runs, then strip. -/
def clean_string (s : String) : String :=
  String.mk (pyStrip (collapseWs s.toList))

/-! ## Orchestrator output formatting

`AlexupportAgent.format_final_answer` builds the final response with a
triple-quoted f-string whose content lines carry the method body
8-space indentation, so the rendered text is newline + 8 spaces, the
answer, the label line, the follow-ups joined by `"; "`, each likewise
indented, and a trailing newline + 8 spaces. -/

/-- `AlexupportAgent.format_final_answer(answer, follow_ups)`. -/
def format_final_answer (answer : String) (follow_ups : List String) : String :=
  "\n        " ++ answer ++
    "\n        Here are some follow-up questions you might consider:\n        " ++
    String.intercalate "; " follow_ups ++ "\n        "

/-! ## Follow-up generator -/

/-- `FollowUpGenerator.generate_follow_ups`, response-decoding part: the raw
model response (the oracle outcome of the single Text Client call) is split
on newlines and each piece stripped:
`[q.strip() for q in follow_ups.split(newline)]`. -/
def generate_follow_ups (follow_ups : List Char) : List (List Char) :=
  (pySplitNl follow_ups).map pyStrip

/-! ## Answerability checker -/

/-- `IsAnswerableAgent.check_answerability(user_question, retrieved_info)`.
The single Text Client call is the oracle `llm` (`Except.error` is a raised
exception, caught by the `try`/`except` in the source); the returned value
pairs the `(bool, reason)` verdict with the number of Text Client calls
performed.  The prompt text built before the emptiness test does not
influence the result and is not replicated here. -/
def check_answerability (retrieved_info : List (List String))
    (llm : Except String (List Char)) : (Bool × String) × Nat :=
  if retrieved_info = [] then
    ((false, "I don\u0027t  have relevant information in my data to answer your question."), 0)
  else
    match llm with
    | .error e => ((false, "Error during answerability check: " ++ e), 1)
    | .ok raw =>
      let response := pyUpper (pyStrip raw)
      if "YES".toList.isPrefixOf response then
        ((true, "The retrieved information is sufficient to answer the question."), 1)
      else if "NO".toList.isPrefixOf response then
        ((false, "I don\u0027t  have relevant information in my data to answer your question."), 1)
      else
        ((false, "Unexpected response from LLM: " ++ String.mk response), 1)

/-! ## Information retriever -/

/-- Payload flattening done per surviving match in
`retrieve_information`: `payload.get("answers", []) + payload.get("review_snippets", [])`. -/
def flattenPayload (r : ScoredPoint) : List String :=
  r.payload.answers.getD [] ++ r.payload.review_snippets.getD []

/-- `InformationRetriever.retrieve_information`, acting on the match list
returned by `query_points` (embedding call and transport already done; their
failures raise and are outside this pure part): keep the points with
`score >= 0.5`, then map each to its flattened payload fields. -/
def retrieve_information (points : List ScoredPoint) : List (List String) :=
  let kept := points.filter fun point => (1 : ℚ)/2 ≤ point.score
  kept.map flattenPayload

/-- The title default of `list_products`:
`payload.get("productTitle") or "(untitled)"` (also mapping a
present-but-empty title to `"(untitled)"`, per Python truthiness). -/
def displayTitle (p : PagePoint) : String :=
  match p.productTitle with
  | none => "(untitled)"
  | some t => if t = "" then "(untitled)" else t

/-- Python truthiness test `if asin` plus `asin not in seen` for one scroll
point inside the `for p in points` loop of `list_products`; the state is
`(collected, seen)`.  `seen` is a Python `set`, embedded as the list of
collected asins (elements are added exactly when a product is appended). -/
def processPoint (st : List Product × List String) (p : PagePoint) :
    List Product × List String :=
  match p.asin with
  | none => st
  | some a =>
    if a ≠ "" ∧ a ∉ st.2 then
      (st.1 ++ [{ asin := a, productTitle := displayTitle p }], st.2 ++ [a])
    else st

/-- The `for p in points` loop of `list_products` over one scroll page. -/
def processPage (pts : List PagePoint) (st : List Product × List String) :
    List Product × List String :=
  pts.foldl processPoint st

/-- The `while len(collected) < limit` loop of
`InformationRetriever.list_products`.  The scroll oracle is embedded as the
sequence of pages the index would serve: entering an iteration fetches the
next page; an empty page is the `if not points: break`, and an exhausted
page list corresponds to `next_page_offset is None`, the
`if page_offset is None: break` after processing (both transport
response shapes decode to the same page/offset data, so one sequence of
pages covers them). -/
def list_products_go (limit : Nat) :
    List (List PagePoint) → List Product × List String → List Product
  | pages, st =>
    if st.1.length < limit then
      match pages with
      | [] => st.1
      | pts :: rest =>
        if pts = [] then st.1
        else
          let st' := processPage pts st
          match rest with
          | [] => st'.1
          | _ :: _ => list_products_go limit rest st'
    else st.1

/-- `InformationRetriever.list_products(limit)` run against an index that
serves the given page sequence. -/
def list_products (limit : Nat) (pages : List (List PagePoint)) : List Product :=
  list_products_go limit pages ([], [])

/-- The size of the largest page a paging sequence serves (the Qdrant
scroll serves pages of at most 256 points, but nothing in `list_products`
depends on that cap). -/
def maxPageLen (pages : List (List PagePoint)) : Nat :=
  (pages.map List.length).foldr max 0

/-! ## Text client and token-usage log -/

/-- `utils.log_token_usage`: validate the operation name (an invalid one
raises `ValueError`), then append one line to the log file; the
`makedirs`/`open`/`write` outcome is the oracle `write` and any failure
there propagates (the function has no handler). -/
def log_token_usage (operation : String) (write : Except String Unit) :
    Except String Unit :=
  if operation = "response_generation" ∨ operation = "embeddings_generation" then
    write
  else
    .error "Operation must be either \u0027response_generation\u0027 or \u0027embeddings_generation\u0027."

/-- `LLMClient.generate_response`, after the chat model has produced
`modelResponse`: the token counts are computed and `log_token_usage` is
called with no surrounding handler, so the response is returned only if the
log write succeeds. -/
def generate_response (modelResponse : String) (write : Except String Unit) :
    Except String String :=
  match log_token_usage "response_generation" write with
  | .ok _ => .ok modelResponse
  | .error e => .error e

/-- `LLMClient.generate_embeddings`, after the embedding model has produced
`embeddings`: `log_token_usage` is called with no surrounding handler, so
the embeddings are returned only if the log write succeeds. -/
def generate_embeddings (embeddings : List ℚ) (write : Except String Unit) :
    Except String (List ℚ) :=
  match log_token_usage "embeddings_generation" write with
  | .ok _ => .ok embeddings
  | .error e => .error e

/-! ## Answer generator

`AnswerGenerator.generate_answer` builds the user-turn prompt from the
conversation history, the question and the retrieved context.  The guard on
the history block is `if self.chat_history:`, which tests the Python
truthiness of the `ConversationBufferMemory` *object* held in the attribute,
not of its message list; a `ConversationBufferMemory` instance defines
neither `__bool__` nor `__len__`, so it is truthy even when it holds no
messages.  The flag `memPresent` below embeds that object-level test; in
this repository `AlexupportAgent.__init__` always passes its freshly built
memory object, so every `generate_answer` call runs with
`memPresent = true`, whatever the message list contains. -/

/-- One history turn rendered as `f"{message.type.upper()}: {message.content}"`. -/
def Msg.serialized (m : Msg) : String :=
  m.typeStr.toUpper ++ ": " ++ m.content

/-- The `history_prefix` local of `generate_answer` (lines 49-53): the
serialized turn list in brackets when the memory object is truthy, the empty
string otherwise. -/
def historyPreamble (memPresent : Bool) (messages : List Msg) : String :=
  if memPresent then
    "Here\u0027s the history of the current chat: [" ++
      String.intercalate "; " (messages.map Msg.serialized) ++ "]."
  else ""

/-- Python `str()` of a `list[list[str]]`, used when the f-string
interpolates `{context}` (string items shown with single quotes; items
containing quotes would be escaped by `repr`, which the agent evidence
never contains). -/
def pyReprContext (context : List (List String)) : String :=
  "[" ++ String.intercalate ", "
    (context.map fun l =>
      "[" ++ String.intercalate ", " (l.map fun s => "\u0027" ++ s ++ "\u0027") ++ "]") ++ "]"

/-- The triple-quoted f-string of `generate_answer` (lines 55-65), before
`clean_string` is applied: content lines carry the method 8-space
indentation. -/
def raw_human_input (memPresent : Bool) (messages : List Msg)
    (user_question : String) (context : List (List String)) : String :=
  "\n        " ++ historyPreamble memPresent messages ++
    "\n        Based on the following information from real customer experiences and reviews, answer the following question using the available information.\n\n        Question: " ++
    user_question ++
    "\n\n        Available Information:\n        " ++ pyReprContext context ++
    "\n\n        Provide a helpful, accurate answer based on this information.\n        "

/-- The `complete_human_input` local of `generate_answer`:
`clean_string` applied to the f-string. -/
def complete_human_input (memPresent : Bool) (messages : List Msg)
    (user_question : String) (context : List (List String)) : String :=
  clean_string (raw_human_input memPresent messages user_question context)

/-! ## Orchestrator

`AlexupportAgent.answer(user_query, asin)` sequences refine → retrieve →
answerability → generation/relevance retry loop → follow-ups, under one
outermost `try`/`except`.  The external calls are oracles collected in
`TurnEnv`:

* `refine` — `InputRefiner.refine_input` (one Text Client call; a raised
  error is `.error`);
* `retrieve` — `InformationRetriever.retrieve_information` (raises
  `RuntimeError` on any transport/embedding failure);
* `answerable` — `IsAnswerableAgent.check_answerability`, which never
  raises (its own `try`/`except` degrades failures to a negative verdict),
  so it is a plain verdict pair;
* `gen k` — the `k`-th call (0-based) of `AnswerGenerator.generate_answer`
  inside the retry loop (may raise: that method has no handler);
* `rel k` — the `k`-th call of `IsRelevantAgent.assess_relevance`.
  Modelled from the spec: the module `is_relevant_agent.py` is not among
  the sources (only its import and call sites are); per spec §4.6 it
  follows the same verdict-decoding policy as the answerability checker,
  degrading transport failures to a negative verdict with a reason, so each
  call returns a `(Bool, String)` pair and never raises;
* `followUps` — `FollowUpGenerator.generate_follow_ups` for this turn
  (called once on every non-error exit path, with the same arguments;
  may raise).
-/

structure TurnEnv where
  refine : Except String String
  retrieve : Except String (List (List String))
  answerable : Bool × String
  gen : Nat → Except String String
  rel : Nat → Bool × String
  followUps : Except String (List String)

/-- Outcome of the bounded retry loop, together with the number of
generate/relevance call pairs performed (`calls` counts the executed loop
iterations; each iteration makes exactly one Answer Generator call and one
Relevance Checker call). -/
inductive LoopOut
  | success (answer : String) (calls : Nat)
  | exhausted (lastReason : String) (calls : Nat)
deriving DecidableEq, Repr

/-- The `while iteration < 5` loop (lines 99-137): `fuel` is the number of
remaining iterations (`5 - iteration`), `i` the iteration counter, `lastR`
the current value of the `reason2` variable, `calls` the iterations
performed so far.  A raised exception inside the body propagates to the
outer guard. -/
def runLoopAux (gen : Nat → Except String String) (rel : Nat → Bool × String) :
    Nat → Nat → String → Nat → Except String LoopOut
  | 0, _, lastR, calls => .ok (.exhausted lastR calls)
  | fuel + 1, i, _, calls =>
    match gen i with
    | .error e => .error e
    | .ok a =>
      let v := rel i
      if v.1 then .ok (.success a (calls + 1))
      else runLoopAux gen rel fuel (i + 1) v.2 (calls + 1)

/-- The retry loop entered from `iteration = 0`; `reason2` is unassigned
before the first iteration (and the loop always runs at least one). -/
def runLoop (gen : Nat → Except String String) (rel : Nat → Bool × String) :
    Except String LoopOut :=
  runLoopAux gen rel 5 0 "" 0

/-- The generic error message of the outermost `except` clause. -/
def errMsg (e : String) : String :=
  "An error occurred while processing your request: " ++ e

/-- The unanswerable fallback message of step 3 (line 88 of the agent),
with `reason1` interpolated after the fixed text. -/
def unanswerableMsg (reason1 : String) : String :=
  "Sorry \u2014 I couldn\u0027t find information reliable enough to answer that.\n\nReason: " ++ reason1

/-- The exhausted-retries fallback message (line 139 of the agent), with
`reason2` interpolated after the fixed text. -/
def exhaustedMsg (reason2 : String) : String :=
  "Sorry \u2014 I couldn\u0027t find a relevant answer to that.\n\nReason: " ++ reason2

/-- `AlexupportAgent.answer(user_query, asin)`: returns the response string
and the conversation history after the turn.  Every exit path first appends
the user turn (done before anything can fail) and then exactly one
assistant turn whose content is the returned string — including the
outermost `except` path, which returns `errMsg`. -/
def answerFn (env : TurnEnv) (history : List Msg) (user_query : String) :
    String × List Msg :=
  let h1 := history ++ [Msg.human user_query]
  let ret : String → String × List Msg := fun s => (s, h1 ++ [Msg.ai s])
  match env.refine with
  | .error e => ret (errMsg e)
  | .ok _refined =>
    match env.retrieve with
    | .error e => ret (errMsg e)
    | .ok _info =>
      let answerable := env.answerable.1
      let reason1 := env.answerable.2
      if answerable = false then
        match env.followUps with
        | .error e => ret (errMsg e)
        | .ok fus => ret (format_final_answer (unanswerableMsg reason1) fus)
      else
        match runLoop env.gen env.rel with
        | .error e => ret (errMsg e)
        | .ok (.success a _) =>
          match env.followUps with
          | .error e => ret (errMsg e)
          | .ok fus => ret (format_final_answer a fus)
        | .ok (.exhausted r _) =>
          match env.followUps with
          | .error e => ret (errMsg e)
          | .ok fus => ret (format_final_answer (exhaustedMsg r) fus)

/-! ## Helper lemmas -/

/-- Splitting on newlines never produces the empty list. -/
lemma pySplitNl_ne_nil (l : List Char) : pySplitNl l ≠ [] := by
  induction l with
  | nil => simp [pySplitNl]
  | cons c cs ih =>
    by_cases h : c = '\n'
    · simp [pySplitNl, h]
    · simp only [pySplitNl, if_neg h]
      cases hcs : pySplitNl cs with
      | nil => simp
      | cons p ps => simp

/-- Splitting on newlines yields one piece more than the newline count. -/
lemma length_pySplitNl (l : List Char) :
    (pySplitNl l).length = l.count '\n' + 1 := by
  induction l with
  | nil => simp [pySplitNl]
  | cons c cs ih =>
    by_cases h : c = '\n'
    · subst h
      simp [pySplitNl, ih, List.count_cons]
    · simp only [pySplitNl, if_neg h]
      cases hcs : pySplitNl cs with
      | nil => exact absurd hcs (pySplitNl_ne_nil cs)
      | cons p ps =>
        rw [hcs] at ih
        simp only [List.length_cons] at ih ⊢
        rw [List.count_cons]
        simp [h, ih]

/-- Dropping while a predicate holds leaves a list untouched when no element
satisfies the predicate. -/
lemma dropWhile_eq_self_of_all {α : Type} {p : α → Bool} {l : List α}
    (h : ∀ c ∈ l, p c = false) : l.dropWhile p = l := by
  cases l with
  | nil => rfl
  | cons a t =>
    rw [List.dropWhile_cons, h a (List.mem_cons_self a t)]
    rfl

/-- Uppercasing fixes whitespace characters. -/
lemma toUpper_of_pyWs {c : Char} (h : pyWs c = true) : c.toUpper = c := by
  simp only [pyWs, Bool.or_eq_true, decide_eq_true_eq] at h
  rcases h with ((((h | h) | h) | h) | h) | h <;> subst h <;> decide

/-- If a whitespace-free pattern prefixes the uppercased raw response, it
also prefixes the uppercased *stripped* response: stripping cannot consume
any pattern character. -/
lemma prefix_pyUpper_pyStrip {pat raw : List Char}
    (hws : ∀ c ∈ pat, pyWs c = false)
    (h : pat <+: pyUpper raw) : pat <+: pyUpper (pyStrip raw) := by
  by_cases hpat : pat = []
  · subst hpat
    exact List.nil_prefix
  obtain ⟨t, ht⟩ := h
  have hlen : pat.length ≤ raw.length := by
    have hl := congrArg List.length ht
    simp only [pyUpper, List.length_map, List.length_append] at hl
    omega
  set r₁ := raw.take pat.length with hr₁def
  set r₂ := raw.drop pat.length with hr₂def
  have hraw : raw = r₁ ++ r₂ := (List.take_append_drop _ raw).symm
  have hmap : r₁.map Char.toUpper = pat := by
    have h2 : r₁.map Char.toUpper ++ r₂.map Char.toUpper = pat ++ t := by
      rw [← List.map_append, ← hraw]
      exact ht.symm
    refine List.append_inj_left h2 ?_
    simp only [List.length_map, hr₁def, List.length_take]
    omega
  have hr₁ws : ∀ c ∈ r₁, pyWs c = false := by
    intro c hc
    by_contra hcw
    have hcw' : pyWs c = true := by
      cases hb : pyWs c with
      | false => exact absurd hb hcw
      | true => rfl
    have hmem : c.toUpper ∈ pat := hmap ▸ List.mem_map_of_mem Char.toUpper hc
    rw [toUpper_of_pyWs hcw'] at hmem
    rw [hws c hmem] at hcw'
    exact Bool.noConfusion hcw'
  have hr₁ne : r₁ ≠ [] := by
    intro h0
    rw [h0] at hmap
    simp only [List.map_nil] at hmap
    exact hpat hmap.symm
  have hd1 : r₁.dropWhile pyWs = r₁ := dropWhile_eq_self_of_all hr₁ws
  have hd2 : r₁.reverse.dropWhile pyWs = r₁.reverse :=
    dropWhile_eq_self_of_all fun c hc => hr₁ws c (List.mem_reverse.mp hc)
  have hl : (r₁ ++ r₂).dropWhile pyWs = r₁ ++ r₂ := by
    rw [List.dropWhile_append, hd1, if_neg]
    intro hcond
    rw [List.isEmpty_iff] at hcond
    exact hr₁ne hcond
  have hstrip : pyStrip raw = r₁ ++ (r₂.reverse.dropWhile pyWs).reverse := by
    rw [pyStrip, hraw, hl, List.reverse_append, List.dropWhile_append, hd2]
    by_cases hemp : (r₂.reverse.dropWhile pyWs).isEmpty = true
    · rw [if_pos hemp]
      rw [List.isEmpty_iff] at hemp
      rw [hemp, List.reverse_reverse]
      simp
    · rw [if_neg hemp, List.reverse_append, List.reverse_reverse]
  rw [hstrip, pyUpper, List.map_append, hmap]
  exact ⟨_, rfl⟩

/-- Processing one scroll point keeps the seen set equal to the list of
collected asins. -/
lemma processPoint_inv {st : List Product × List String} {p : PagePoint}
    (h : st.2 = st.1.map Product.asin) :
    (processPoint st p).2 = (processPoint st p).1.map Product.asin := by
  rcases st with ⟨c, s⟩
  cases hp : p.asin with
  | none => simpa [processPoint, hp] using h
  | some a =>
    by_cases hc : a ≠ "" ∧ a ∉ s
    · simp only [processPoint, hp, if_pos hc]
      simp only at h
      simp [h]
    · simp only [processPoint, hp, if_neg hc]
      exact h

/-- Processing one scroll point preserves distinctness of collected asins. -/
lemma processPoint_nodup {st : List Product × List String} {p : PagePoint}
    (hinv : st.2 = st.1.map Product.asin)
    (hnd : (st.1.map Product.asin).Nodup) :
    ((processPoint st p).1.map Product.asin).Nodup := by
  rcases st with ⟨c, s⟩
  cases hp : p.asin with
  | none => simpa [processPoint, hp] using hnd
  | some a =>
    by_cases hc : a ≠ "" ∧ a ∉ s
    · simp only [processPoint, hp, if_pos hc]
      simp only at hinv hnd
      rw [List.map_append, List.map_singleton, List.nodup_append]
      refine ⟨hnd, List.nodup_singleton a, ?_⟩
      intro x hx hx'
      rw [List.mem_singleton] at hx'
      subst hx'
      exact hc.2 (hinv ▸ hx)
    · simpa [processPoint, hp, if_neg hc] using hnd

/-- Processing one scroll point adds at most one product. -/
lemma processPoint_length (st : List Product × List String) (p : PagePoint) :
    (processPoint st p).1.length ≤ st.1.length + 1 := by
  rcases st with ⟨c, s⟩
  cases hp : p.asin with
  | none =>
    simp [processPoint, hp]
  | some a =>
    by_cases hc : a ≠ "" ∧ a ∉ s
    · simp [processPoint, hp, hc]
    · simp [processPoint, hp, hc]

/-- Processing one scroll point only grows the seen set. -/
lemma processPoint_seen_sub (st : List Product × List String) (p : PagePoint) :
    st.2 ⊆ (processPoint st p).2 := by
  rcases st with ⟨c, s⟩
  cases hp : p.asin with
  | none => simp [processPoint, hp]
  | some a =>
    by_cases hc : a ≠ "" ∧ a ∉ s
    · simp only [processPoint, hp, if_pos hc]
      exact List.subset_append_left s [a]
    · simp [processPoint, hp, hc]

/-- Folding a point list keeps seen aligned with collected. -/
lemma foldl_processPoint_inv (F : List PagePoint) :
    ∀ st : List Product × List String, st.2 = st.1.map Product.asin →
      (F.foldl processPoint st).2 = (F.foldl processPoint st).1.map Product.asin := by
  induction F with
  | nil => intro st h; simpa using h
  | cons p F ih =>
    intro st h
    rw [List.foldl_cons]
    exact ih _ (processPoint_inv h)

/-- Folding a point list preserves distinctness of collected asins. -/
lemma foldl_processPoint_nodup (F : List PagePoint) :
    ∀ st : List Product × List String, st.2 = st.1.map Product.asin →
      (st.1.map Product.asin).Nodup →
      ((F.foldl processPoint st).1.map Product.asin).Nodup := by
  induction F with
  | nil => intro st _ hnd; simpa using hnd
  | cons p F ih =>
    intro st h hnd
    rw [List.foldl_cons]
    exact ih _ (processPoint_inv h) (processPoint_nodup h hnd)

/-- Folding a point list adds at most one product per point. -/
lemma foldl_processPoint_length (F : List PagePoint) :
    ∀ st : List Product × List String,
      (F.foldl processPoint st).1.length ≤ st.1.length + F.length := by
  induction F with
  | nil => intro st; simp
  | cons p F ih =>
    intro st
    rw [List.foldl_cons]
    have h1 := ih (processPoint st p)
    have h2 := processPoint_length st p
    simp only [List.length_cons]
    omega

/-- Every product collected by the fold that was not already in the state
comes from the first point of the list carrying its asin, with the display
title of that point. -/
lemma foldl_processPoint_first_seen (F : List PagePoint) :
    ∀ st : List Product × List String, st.2 = st.1.map Product.asin →
      ∀ pr ∈ (F.foldl processPoint st).1,
        pr ∈ st.1 ∨
        (pr.asin ∉ st.2 ∧ pr.asin ≠ "" ∧
          ∃ p, F.find? (fun q => decide (q.asin = some pr.asin)) = some p ∧
            pr.productTitle = displayTitle p) := by
  induction F with
  | nil =>
    intro st _ pr hpr
    exact Or.inl (by simpa using hpr)
  | cons p F ih =>
    intro st hinv pr hpr
    rw [List.foldl_cons] at hpr
    rcases ih (processPoint st p) (processPoint_inv hinv) pr hpr with
      hmem | ⟨hnot, hne, p', hfind, htitle⟩
    · rcases st with ⟨c, s⟩
      cases hp : p.asin with
      | none =>
        left
        simpa [processPoint, hp] using hmem
      | some a =>
        by_cases hc : a ≠ "" ∧ a ∉ s
        · simp only [processPoint, hp, if_pos hc] at hmem
          rcases List.mem_append.mp hmem with h1 | h2
          · exact Or.inl h1
          · rw [List.mem_singleton] at h2
            subst h2
            right
            refine ⟨hc.2, hc.1, p, ?_, rfl⟩
            apply List.find?_cons_of_pos
            simp [hp]
        · simp only [processPoint, hp, if_neg hc] at hmem
          exact Or.inl hmem
    · right
      have hsub : st.2 ⊆ (processPoint st p).2 := processPoint_seen_sub st p
      refine ⟨fun hmem2 => hnot (hsub hmem2), hne, p', ?_, htitle⟩
      have hpred : ¬ ((fun q => decide (q.asin = some pr.asin)) p = true) := by
        simp only [decide_eq_true_eq]
        intro hqa
        rcases st with ⟨c, s⟩
        by_cases hc : pr.asin ≠ "" ∧ pr.asin ∉ s
        · apply hnot
          simp [processPoint, hqa, hc]
        · rcases not_and_or.mp hc with h0 | h0
          · exact hne (not_not.mp h0)
          · exact hnot (hsub (not_not.mp h0))
      have hcons := List.find?_cons_of_neg (p := fun q => decide (q.asin = some pr.asin))
        (a := p) F hpred
      rw [hcons]
      exact hfind

/-- A successful search in a list prefix is a successful search in the whole
list. -/
lemma find?_append_of_some {α : Type} {p : α → Bool} {l₁ l₂ : List α} {a : α}
    (h : l₁.find? p = some a) : (l₁ ++ l₂).find? p = some a := by
  induction l₁ with
  | nil => simp at h
  | cons x xs ih =>
    rw [List.cons_append]
    cases hx : p x with
    | true =>
      rw [List.find?_cons_of_pos _ hx] at h
      rw [List.find?_cons_of_pos _ hx]
      exact h
    | false =>
      rw [List.find?_cons_of_neg _ (by simp [hx])] at h
      rw [List.find?_cons_of_neg _ (by simp [hx])]
      exact ih h

/-- Head page of a paging sequence is bounded by the largest page size. -/
lemma maxPageLen_cons (pts : List PagePoint) (rest : List (List PagePoint)) :
    maxPageLen (pts :: rest) = max pts.length (maxPageLen rest) :=
  rfl

/-- The listing loop only ever collects a number of products bounded by its
entry state and one page worth of overshoot past the limit. -/
lemma go_length (limit : Nat) :
    ∀ (pages : List (List PagePoint)) (st : List Product × List String),
      (list_products_go limit pages st).length ≤
        max st.1.length ((limit - 1) + maxPageLen pages) := by
  intro pages
  induction pages with
  | nil =>
    intro st
    rw [list_products_go]
    by_cases hlim : st.1.length < limit
    · simp only [if_pos hlim]
      exact le_max_left _ _
    · simp only [if_neg hlim]
      exact le_max_left _ _
  | cons pts rest ih =>
    intro st
    by_cases hlim : st.1.length < limit
    · by_cases hpts : pts = []
      · rw [list_products_go]
        simp only [if_pos hlim, hpts, if_pos rfl]
        exact le_max_left _ _
      · have hlen' : (processPage pts st).1.length ≤ st.1.length + pts.length :=
          foldl_processPoint_length pts st
        have h1 : pts.length ≤ maxPageLen (pts :: rest) := by
          rw [maxPageLen_cons]
          exact le_max_left _ _
        have hbound : (processPage pts st).1.length ≤
            (limit - 1) + maxPageLen (pts :: rest) := by
          omega
        cases rest with
        | nil =>
          rw [list_products_go]
          simp only [if_pos hlim, if_neg hpts]
          exact le_trans hbound (le_max_right _ _)
        | cons r rs =>
          rw [list_products_go]
          simp only [if_pos hlim, if_neg hpts]
          have hrec := ih (processPage pts st)
          have h2 : maxPageLen (r :: rs) ≤ maxPageLen (pts :: r :: rs) := by
            rw [maxPageLen_cons]
            exact le_max_right _ _
          refine le_trans hrec (le_trans (max_le hbound ?_) (le_max_right _ _))
          omega
    · rw [list_products_go]
      simp only [if_neg hlim]
      exact le_max_left _ _

/-- The listing loop computes the first-seen fold of the flattening of some
prefix of the served pages. -/
lemma go_as_fold (limit : Nat) :
    ∀ (pages : List (List PagePoint)) (F : List PagePoint),
      ∃ n ≤ pages.length,
        list_products_go limit pages (F.foldl processPoint ([], [])) =
          ((F ++ ((pages.take n).flatten)).foldl processPoint ([], [])).1 := by
  intro pages
  induction pages with
  | nil =>
    intro F
    refine ⟨0, le_rfl, ?_⟩
    rw [list_products_go]
    by_cases hlim : (F.foldl processPoint ([], [])).1.length < limit
    · simp [if_pos hlim]
    · simp [if_neg hlim]
  | cons pts rest ih =>
    intro F
    by_cases hlim : (F.foldl processPoint ([], [])).1.length < limit
    · by_cases hpts : pts = []
      · refine ⟨0, Nat.zero_le _, ?_⟩
        rw [list_products_go]
        simp [if_pos hlim, hpts]
      · have hfold : processPage pts (F.foldl processPoint ([], [])) =
            (F ++ pts).foldl processPoint ([], []) := by
          rw [processPage, List.foldl_append]
        cases rest with
        | nil =>
          refine ⟨1, le_rfl, ?_⟩
          rw [list_products_go]
          simp only [if_pos hlim, if_neg hpts]
          rw [hfold]
          simp
        | cons r rs =>
          obtain ⟨n', hn', heq⟩ := ih (F ++ pts)
          refine ⟨n' + 1, by simpa using Nat.succ_le_succ hn', ?_⟩
          rw [list_products_go]
          simp only [if_pos hlim, if_neg hpts]
          rw [hfold, heq]
          rw [List.take_succ_cons, List.flatten_cons, List.append_assoc]
    · refine ⟨0, Nat.zero_le _, ?_⟩
      rw [list_products_go]
      simp [if_neg hlim]

/-! ## Claim theorems -/

/-- C10: `generateFollowUps` returns exactly the list obtained by splitting
the model response on newline characters and trimming each piece; the list
always has at least one element (the empty response yields the singleton
empty piece), blank lines are kept as empty entries, and no deduplication,
filtering or 2-3 count enforcement happens (the exact split-and-strip
equality leaves no room for any of those). -/
theorem C10_split_and_strip (resp : List Char) :
    generate_follow_ups resp = (pySplitNl resp).map pyStrip ∧
    (generate_follow_ups resp).length = resp.count '\n' + 1 ∧
    generate_follow_ups resp ≠ [] ∧
    generate_follow_ups [] = [[]] ∧
    generate_follow_ups ['a', '\n', '\n', 'a'] = [['a'], [], ['a']] := by
  refine ⟨rfl, ?_, ?_, by decide, by decide⟩
  · rw [generate_follow_ups, List.length_map, length_pySplitNl]
  · rw [generate_follow_ups]
    intro h
    exact pySplitNl_ne_nil resp (List.map_eq_nil_iff.mp h)

/-- C2 counterexample: on empty evidence the verdict is negative and no Text
Client call happens, but the reason string is the long apology sentence, not
the literal reason text the claim states. -/
theorem C2_counterexample :
    check_answerability [] (.ok "YES".toList) =
      ((false, "I don\u0027t  have relevant information in my data to answer your question."), 0) ∧
    (check_answerability [] (.ok "YES".toList)).1.2 ≠ "insufficient information" := by
  constructor
  · rfl
  · decide

/-- C2 amended: for every Text Client oracle, `check_answerability` on an
empty evidence set returns the negative verdict whose reason is the sentence
`I don\u0027t  have relevant information...` (sentence as in the source)
(with the double space of the source) and performs zero Text Client calls. -/
theorem C2_empty_evidence_short_circuit (llm : Except String (List Char)) :
    check_answerability [] llm =
      ((false, "I don\u0027t  have relevant information in my data to answer your question."), 0) := by
  rfl

/-- C3 counterexample: the formatted final response does not start with the
answer text and does not equal answer-newline-label-newline-joined
follow-ups; the f-string contributes a leading newline and 8 spaces of
indentation before the answer. -/
theorem C3_counterexample :
    format_final_answer "A" ["Q1", "Q2"] ≠
      "A\nHere are some follow-up questions you might consider:\nQ1; Q2" ∧
    ("A".toList.isPrefixOf (format_final_answer "A" ["Q1", "Q2"]).toList) = false := by
  constructor
  · decide
  · decide

/-- C3 amended: the formatted final response is exactly newline + 8 spaces,
the answer text, newline + 8 spaces, the label
`Here are some follow-up questions you might consider:`, newline + 8
spaces, the follow-ups joined by a semicolon and space, and a trailing
newline + 8 spaces; in particular the returned string starts with a newline
and indentation followed by the answer text, not with the answer text
itself. -/
theorem C3_template (answer : String) (follow_ups : List String) :
    format_final_answer answer follow_ups =
      "\n        " ++ answer ++
        "\n        Here are some follow-up questions you might consider:\n        " ++
        String.intercalate "; " follow_ups ++ "\n        " ∧
    ∃ rest, format_final_answer answer follow_ups = "\n        " ++ answer ++ rest := by
  refine ⟨rfl, "\n        Here are some follow-up questions you might consider:\n        " ++
    String.intercalate "; " follow_ups ++ "\n        ", ?_⟩
  simp [format_final_answer, String.append_assoc]

/-- C7 counterexample: a failing token-usage log write aborts
`generate_response`: the caller gets the logging error, not the generated
response. -/
theorem C7_counterexample :
    generate_response "hello" (.error "disk full") = .error "disk full" ∧
    generate_response "hello" (.error "disk full") ≠ .ok "hello" := by
  constructor
  · rfl
  · intro h
    exact Except.noConfusion h

/-- C7 amended: the unguarded `log_token_usage` call propagates log-write
failures to the caller of `generate_response` / `generate_embeddings`; the
generated response or embedding is returned only when the log write
succeeds, and a write failure surfaces as that same error instead of the
result. -/
theorem C7_log_failure_propagates (r : String) (em : List ℚ) (e : String) :
    generate_response r (.error e) = .error e ∧
    generate_response r (.ok ()) = .ok r ∧
    generate_embeddings em (.error e) = .error e ∧
    generate_embeddings em (.ok ()) = .ok em := by
  exact ⟨rfl, rfl, rfl, rfl⟩

/-- C5: `retrieve_information` keeps exactly the matches scoring at least
0.5, maps each survivor to its `answers` list concatenated with its
`review_snippets` list (a missing field contributing the empty list, not an
error), keeps the index order (the survivors form a sublist of the
matches), and returns the empty list rather than failing when nothing
survives the filter. -/
theorem C5_retrieve_filter_map (points : List ScoredPoint) :
    retrieve_information points =
      (points.filter fun point => (1 : ℚ)/2 ≤ point.score).map flattenPayload ∧
    (points.filter fun point => (1 : ℚ)/2 ≤ point.score).Sublist points ∧
    ((∀ p ∈ points, p.score < (1 : ℚ)/2) → retrieve_information points = []) ∧
    (∀ (s : ℚ) (l : List String),
      flattenPayload ⟨s, ⟨none, some l⟩⟩ = l ∧ flattenPayload ⟨s, ⟨some l, none⟩⟩ = l) := by
  refine ⟨rfl, List.filter_sublist points, ?_, ?_⟩
  · intro hall
    rw [retrieve_information]
    have hnil : points.filter (fun point => decide ((1 : ℚ)/2 ≤ point.score)) = [] := by
      rw [List.filter_eq_nil_iff]
      intro p hp
      simpa using not_le.mpr (hall p hp)
    rw [hnil]
    rfl
  · intro s l
    constructor <;> simp [flattenPayload]

/-- C4: decoding of the answerability verdict.  A response beginning
case-insensitively with YES (before any stripping) yields a positive
verdict and one beginning with NO a negative one, and a transport failure
degrades to a negative verdict with an explanatory reason instead of an
exception; but the unrecognized-response reason quotes the *stripped and
uppercased* response text, not the raw text (see the counterexample). -/
theorem C4_verdict_decode (info : List (List String)) (raw : List Char) (e : String)
    (hinfo : info ≠ []) :
    ("YES".toList <+: pyUpper raw →
        check_answerability info (.ok raw) =
          ((true, "The retrieved information is sufficient to answer the question."), 1)) ∧
    ("NO".toList <+: pyUpper raw →
        check_answerability info (.ok raw) =
          ((false, "I don\u0027t  have relevant information in my data to answer your question."), 1)) ∧
    (¬ "YES".toList <+: pyUpper (pyStrip raw) →
      ¬ "NO".toList <+: pyUpper (pyStrip raw) →
        check_answerability info (.ok raw) =
          ((false, "Unexpected response from LLM: " ++ String.mk (pyUpper (pyStrip raw))), 1)) ∧
    check_answerability info (.error e) =
      ((false, "Error during answerability check: " ++ e), 1) := by
  have hYESws : ∀ c ∈ "YES".toList, pyWs c = false := by decide
  have hNOws : ∀ c ∈ "NO".toList, pyWs c = false := by decide
  refine ⟨?_, ?_, ?_, ?_⟩
  · intro h
    have hp : ['Y', 'E', 'S'] <+: pyUpper (pyStrip raw) :=
      prefix_pyUpper_pyStrip hYESws h
    simp [check_answerability, hinfo, hp]
  · intro h
    have hn : ['N', 'O'] <+: pyUpper (pyStrip raw) :=
      prefix_pyUpper_pyStrip hNOws h
    have hy : ¬ (['Y', 'E', 'S'] <+: pyUpper (pyStrip raw)) := by
      intro hb
      obtain ⟨t1, e1⟩ := hb
      obtain ⟨t2, e2⟩ := hn
      rw [← e2] at e1
      simp only [List.cons_append, List.nil_append] at e1
      injection e1 with h1 _
      exact absurd h1 (by decide)
    simp [check_answerability, hinfo, hy, hn]
  · intro hy hn
    have hy2 : ¬ (['Y', 'E', 'S'] <+: pyUpper (pyStrip raw)) := hy
    have hn2 : ¬ (['N', 'O'] <+: pyUpper (pyStrip raw)) := hn
    simp [check_answerability, hinfo, hy2, hn2]
  · simp [check_answerability, hinfo]

/-- C4 witness: on nonempty evidence, the responses `yes indeed` and a
transport failure `boom` decode as the theorem states. -/
theorem C4_verdict_decode_witness :
    check_answerability [["ev"]] (.ok "yes indeed".toList) =
      ((true, "The retrieved information is sufficient to answer the question."), 1) ∧
    check_answerability [["ev"]] (.error "boom") =
      ((false, "Error during answerability check: boom"), 1) :=
  ⟨(C4_verdict_decode [["ev"]] "yes indeed".toList "boom" (by decide)).1 (by decide),
   (C4_verdict_decode [["ev"]] "yes indeed".toList "boom" (by decide)).2.2.2⟩

/-- C4 counterexample: for the response `maybe` the verdict reason is
`Unexpected response from LLM: MAYBE`, which does not contain the raw
response text `maybe` (only its uppercased form). -/
theorem C4_counterexample :
    check_answerability [["ev"]] (.ok "maybe".toList) =
      ((false, "Unexpected response from LLM: MAYBE"), 1) ∧
    ¬ ("maybe".toList <:+: "Unexpected response from LLM: MAYBE".toList) := by
  constructor
  · rfl
  · decide

/-- C6 counterexample: with `limit = 1` and one served page holding two
points with distinct asins, `list_products` returns 2 entries — the limit
is only checked between pages, so the loop overshoots within a page. -/
theorem C6_counterexample :
    list_products 1 [[⟨some "a", some "T1"⟩, ⟨some "b", some "T2"⟩]] =
      [⟨"a", "T1"⟩, ⟨"b", "T2"⟩] ∧
    ¬ (list_products 1 [[⟨some "a", some "T1"⟩, ⟨some "b", some "T2"⟩]]).length ≤ 1 := by
  constructor
  · rfl
  · decide

/-- C6 amended: `listProducts` never returns two entries with the same asin
and the first-seen title wins for each asin (every returned entry carries
the display title of the first point in the served stream with its asin);
but the entry count is only bounded by `limit - 1` plus the largest served
page size, not by `limit`: the limit is checked only between pages, so the
final processed page can overshoot it by up to a page worth of entries. -/
theorem C6_distinct_asins (limit : Nat) (pages : List (List PagePoint)) :
    ((list_products limit pages).map Product.asin).Nodup ∧
    (list_products limit pages).length ≤ (limit - 1) + maxPageLen pages ∧
    (∀ pr ∈ list_products limit pages,
      pr.asin ≠ "" ∧
      ∃ p, pages.flatten.find? (fun q => decide (q.asin = some pr.asin)) = some p ∧
        pr.productTitle = displayTitle p) := by
  obtain ⟨n, hn, heq⟩ := go_as_fold limit pages []
  have hlp : list_products limit pages =
      (((pages.take n).flatten).foldl processPoint ([], [])).1 := by
    rw [list_products]
    simpa using heq
  refine ⟨?_, ?_, ?_⟩
  · rw [hlp]
    exact foldl_processPoint_nodup ((pages.take n).flatten) ([], []) rfl (by simp)
  · have h := go_length limit pages ([], [])
    rw [list_products]
    simpa using h
  · intro pr hpr
    rw [hlp] at hpr
    rcases foldl_processPoint_first_seen ((pages.take n).flatten) ([], []) rfl pr hpr with
      h0 | ⟨_, hne, p, hfind, ht⟩
    · simp at h0
    · refine ⟨hne, p, ?_, ht⟩
      have hsplit : pages.flatten = (pages.take n).flatten ++ (pages.drop n).flatten := by
        rw [← List.flatten_append, List.take_append_drop]
      rw [hsplit]
      exact find?_append_of_some hfind

/-- C6 witness: two points sharing asin `a` over one page give one entry,
whose title is the display title of the first such point in the stream. -/
theorem C6_distinct_asins_witness :
    ((list_products 5 [[⟨some "a", some "T1"⟩, ⟨some "a", some "T2"⟩]]).map
      Product.asin).Nodup ∧
    (∃ p,
      ([[(⟨some "a", some "T1"⟩ : PagePoint), ⟨some "a", some "T2"⟩]] :
          List (List PagePoint)).flatten.find?
        (fun q => decide (q.asin = some "a")) = some p ∧
      "T1" = displayTitle p) := by
  refine ⟨(C6_distinct_asins 5 [[⟨some "a", some "T1"⟩, ⟨some "a", some "T2"⟩]]).1, ?_⟩
  have h := (C6_distinct_asins 5 [[⟨some "a", some "T1"⟩, ⟨some "a", some "T2"⟩]]).2.2
    ⟨"a", "T1"⟩ (by decide)
  exact h.2

/-- C8 counterexample: with an empty conversation history the serialized
history block is not omitted: the memory object is always truthy, so the
prompt contains the degenerate sentence with empty brackets, and the raw
prompt differs from the one that would be built with the block omitted. -/
theorem C8_counterexample :
    historyPreamble true [] = "Here\u0027s the history of the current chat: []." ∧
    historyPreamble true [] ≠ "" ∧
    raw_human_input true [] "Is it waterproof?" [] ≠
      raw_human_input false [] "Is it waterproof?" [] := by
  refine ⟨rfl, by decide, by decide⟩

/-- C8 amended: the history block of the prompt is controlled by the
truthiness of the memory *object*, which in this repository is always
truthy, not by whether the history is empty: for every history the raw
prompt embeds the sentence bracketing the turns serialized as
`ROLE: content` joined by a semicolon and space, and with an empty history
the block degenerates to the sentence with empty brackets instead of being
omitted (it is never the empty string); the block would be empty only if
the memory attribute itself were falsy. -/
theorem C8_history_block (messages : List Msg) (q : String) (ctx : List (List String)) :
    historyPreamble true messages =
      "Here\u0027s the history of the current chat: [" ++
        String.intercalate "; " (messages.map Msg.serialized) ++ "]." ∧
    historyPreamble false messages = "" ∧
    raw_human_input true messages q ctx =
      "\n        " ++ historyPreamble true messages ++
        "\n        Based on the following information from real customer experiences and reviews, answer the following question using the available information.\n\n        Question: " ++
        q ++ "\n\n        Available Information:\n        " ++ pyReprContext ctx ++
        "\n\n        Provide a helpful, accurate answer based on this information.\n        " ∧
    historyPreamble true messages ≠ "" := by
  refine ⟨rfl, rfl, rfl, ?_⟩
  intro h
  have hlen := congrArg String.length h
  simp only [historyPreamble, if_pos, String.length_append] at hlen
  have h0 : ("" : String).length = 0 := rfl
  have hpos : 0 < ("Here\u0027s the history of the current chat: [" : String).length := by
    decide
  rw [h0] at hlen
  omega

/-- The retry loop succeeds at the first relevant attempt: if attempts
`i, …, k-1` are judged not relevant and attempt `k` relevant, running the
loop from iteration `i` with enough fuel returns the answer generated at that attempt after `k - i + 1` further generate/relevance call pairs. -/
lemma runLoopAux_success (gen : Nat → Except String String)
    (rel : Nat → Bool × String) (g : Nat → String)
    (hgen : ∀ j, gen j = .ok (g j)) :
    ∀ (fuel i : Nat) (lastR : String) (calls k : Nat),
      i ≤ k → k < i + fuel →
      (∀ j, i ≤ j → j < k → (rel j).1 = false) →
      (rel k).1 = true →
      runLoopAux gen rel fuel i lastR calls =
        .ok (.success (g k) (calls + (k - i) + 1)) := by
  intro fuel
  induction fuel with
  | zero =>
    intro i lastR calls k h1 h2 _ _
    omega
  | succ fuel ih =>
    intro i lastR calls k h1 h2 hfalse htrue
    by_cases hik : i = k
    · subst hik
      simp [runLoopAux, hgen i, htrue]
    · have hk : i < k := lt_of_le_of_ne h1 hik
      have hf : (rel i).1 = false := hfalse i le_rfl hk
      have hrec := ih (i + 1) (rel i).2 (calls + 1) k (by omega) (by omega)
        (fun j hj1 hj2 => hfalse j (by omega) hj2) htrue
      have hc : calls + 1 + (k - (i + 1)) + 1 = calls + (k - i) + 1 := by omega
      rw [hc] at hrec
      simp [runLoopAux, hgen i, hf, hrec]

/-- The retry loop exhausts its fuel when every attempt in range is judged
not relevant, ending with the reason of the last executed relevance check
and one generate/relevance call pair per unit of fuel. -/
lemma runLoopAux_exhaust (gen : Nat → Except String String)
    (rel : Nat → Bool × String) (g : Nat → String)
    (hgen : ∀ j, gen j = .ok (g j)) :
    ∀ (fuel i : Nat) (lastR : String) (calls : Nat), 0 < fuel →
      (∀ j, i ≤ j → j < i + fuel → (rel j).1 = false) →
      runLoopAux gen rel fuel i lastR calls =
        .ok (.exhausted (rel (i + fuel - 1)).2 (calls + fuel)) := by
  intro fuel
  induction fuel with
  | zero =>
    intro i lastR calls h0
    omega
  | succ fuel ih =>
    intro i lastR calls _ hall
    have hf : (rel i).1 = false := hall i le_rfl (by omega)
    have hstep : runLoopAux gen rel (fuel + 1) i lastR calls =
        runLoopAux gen rel fuel (i + 1) (rel i).2 (calls + 1) := by
      simp [runLoopAux, hgen i, hf]
    rw [hstep]
    cases fuel with
    | zero =>
      simp [runLoopAux]
    | succ fuel' =>
      have hrec := ih (i + 1) (rel i).2 (calls + 1) (by omega)
        (fun j hj1 hj2 => hall j (by omega) (by omega))
      have hr : i + 1 + (fuel' + 1) - 1 = i + (fuel' + 1 + 1) - 1 := by omega
      have hc : calls + 1 + (fuel' + 1) = calls + (fuel' + 1 + 1) := by omega
      rw [hrec, hr, hc]

/-- C1: when the answerability verdict is true and no component raises, the
generation retry loop performs at most 5 generate/relevance call pairs.  If
attempt `k` (0-based, `k < 5`) is the first one judged relevant, the loop
stops immediately with exactly `k + 1` calls of the Answer Generator and
`k + 1` of the Relevance Checker and the turn returns the answer of that attempt formatted with the follow-ups; if all 5 attempts are judged not relevant,
exactly 5 calls of each are made and the turn returns the
exhausted-retries fallback built from the reason of the 5th (last) relevance check. -/
theorem C1_retry_loop (env : TurnEnv) (h : List Msg) (q : String)
    (g : Nat → String) (fus : List String) (k : Nat) (r1 rq : String)
    (info : List (List String))
    (hrefine : env.refine = .ok rq) (hretrieve : env.retrieve = .ok info)
    (hanswerable : env.answerable = (true, r1))
    (hgen : ∀ j, env.gen j = .ok (g j))
    (hfus : env.followUps = .ok fus) :
    (k < 5 → (∀ j, j < k → (env.rel j).1 = false) → (env.rel k).1 = true →
      runLoop env.gen env.rel = .ok (.success (g k) (k + 1)) ∧
      answerFn env h q =
        (format_final_answer (g k) fus,
         h ++ [Msg.human q, Msg.ai (format_final_answer (g k) fus)])) ∧
    ((∀ j, j < 5 → (env.rel j).1 = false) →
      runLoop env.gen env.rel = .ok (.exhausted (env.rel 4).2 5) ∧
      answerFn env h q =
        (format_final_answer (exhaustedMsg (env.rel 4).2) fus,
         h ++ [Msg.human q,
           Msg.ai (format_final_answer (exhaustedMsg (env.rel 4).2) fus)])) := by
  constructor
  · intro hk hfalse htrue
    have hloop : runLoop env.gen env.rel = .ok (.success (g k) (k + 1)) := by
      have := runLoopAux_success env.gen env.rel g hgen 5 0 "" 0 k
        (Nat.zero_le k) (by omega) (fun j _ hj => hfalse j hj) htrue
      simpa [runLoop] using this
    refine ⟨hloop, ?_⟩
    simp [answerFn, hrefine, hretrieve, hanswerable, hfus, hloop]
  · intro hall
    have hloop : runLoop env.gen env.rel = .ok (.exhausted (env.rel 4).2 5) := by
      have := runLoopAux_exhaust env.gen env.rel g hgen 5 0 "" 0
        (by omega) (fun j _ hj => hall j (by omega))
      simpa [runLoop] using this
    refine ⟨hloop, ?_⟩
    simp [answerFn, hrefine, hretrieve, hanswerable, hfus, hloop]

/-- C1 witness: with relevance first true at attempt 2 (0-based), the loop
makes 3 call pairs and the turn returns the formatted answer of that attempt. -/
theorem C1_retry_loop_witness :
    runLoop (fun _ => .ok "a2")
        (fun i => (decide (i = 2), "r" ++ toString i)) =
      .ok (.success "a2" 3) ∧
    (answerFn
        ⟨.ok "rq", .ok [["e"]], (true, "r1"),
          fun _ => .ok "a2",
          fun i => (decide (i = 2), "r" ++ toString i), .ok ["f"]⟩
        [] "q").1 =
      format_final_answer "a2" ["f"] := by
  have h := (C1_retry_loop
    ⟨.ok "rq", .ok [["e"]], (true, "r1"),
      fun _ => .ok "a2",
      fun i => (decide (i = 2), "r" ++ toString i), .ok ["f"]⟩
    [] "q" (fun _ => "a2") ["f"] 2 "r1" "rq" [["e"]]
    rfl rfl rfl (fun j => rfl) rfl).1 (by omega)
    (by
      intro j hj
      simp only [decide_eq_false_iff_not]
      omega)
    (by decide)
  exact ⟨h.1, by rw [h.2]⟩

/-- C9: `answer` always returns a string and the conversation history after
the turn is always the old history plus the user turn and one assistant
turn whose content is exactly the returned string — on the error path the
assistant turn carries the generic error message embedding the cause. -/
theorem C9_always_returns (env : TurnEnv) (history : List Msg) (q : String) :
    (answerFn env history q).2 =
      history ++ [Msg.human q, Msg.ai (answerFn env history q).1] ∧
    (∀ e, env.refine = .error e →
      answerFn env history q =
        (errMsg e, history ++ [Msg.human q, Msg.ai (errMsg e)])) ∧
    (∀ rq e, env.refine = .ok rq → env.retrieve = .error e →
      answerFn env history q =
        (errMsg e, history ++ [Msg.human q, Msg.ai (errMsg e)])) := by
  obtain ⟨ref, retr, ans, gen, rel, fol⟩ := env
  refine ⟨?_, ?_, ?_⟩
  · cases ref with
    | error e => simp [answerFn]
    | ok rq =>
      cases retr with
      | error e => simp [answerFn]
      | ok info =>
        by_cases hans : ans.1 = false
        · cases fol <;> simp [answerFn, hans]
        · cases hloop : runLoop gen rel with
          | error e => simp [answerFn, hans, hloop]
          | ok out =>
            cases out with
            | success a c => cases fol <;> simp [answerFn, hans, hloop]
            | exhausted r c => cases fol <;> simp [answerFn, hans, hloop]
  · intro e he
    cases he
    simp [answerFn]
  · intro rq e h1 h2
    cases h1
    cases h2
    simp [answerFn]

/-- C9 witness: a refinement failure is caught, returned as the generic
error message, and recorded as the assistant turn of the failed turn. -/
theorem C9_always_returns_witness :
    answerFn
        ⟨.error "boom", .ok [], (true, "r"), fun _ => .ok "",
          fun _ => (true, ""), .ok []⟩
        [] "q" =
      (errMsg "boom", [Msg.human "q", Msg.ai (errMsg "boom")]) :=
  (C9_always_returns
    ⟨.error "boom", .ok [], (true, "r"), fun _ => .ok "",
      fun _ => (true, ""), .ok []⟩
    [] "q").2.1 "boom" rfl

/-- C5 witness: a single match scoring one quarter is filtered out and the
result is the empty list. -/
theorem C5_retrieve_witness :
    retrieve_information [⟨(1 : ℚ)/4, ⟨some ["a"], none⟩⟩] = [] :=
  (C5_retrieve_filter_map [⟨(1 : ℚ)/4, ⟨some ["a"], none⟩⟩]).2.2.1 (by
    intro p hp
    simp only [List.mem_singleton] at hp
    subst hp
    norm_num)



/-- C10 witness: a one-character response splits into one nonempty piece. -/
theorem C10_split_and_strip_witness :
    generate_follow_ups ['a'] ≠ [] ∧ generate_follow_ups ['a'] = [['a']] :=
  ⟨(C10_split_and_strip ['a']).2.2.1, rfl⟩

/-- C2 amended witness: the short circuit also holds under a failing Text
Client oracle, proving no call is made. -/
theorem C2_empty_evidence_short_circuit_witness :
    check_answerability [] (.error "down") =
      ((false, "I don\u0027t  have relevant information in my data to answer your question."), 0) :=
  C2_empty_evidence_short_circuit (.error "down")

/-- C3 amended witness: the template at a concrete answer and follow-ups. -/
theorem C3_template_witness :
    format_final_answer "A" ["Q"] =
      "\n        " ++ "A" ++
        "\n        Here are some follow-up questions you might consider:\n        " ++
        String.intercalate "; " ["Q"] ++ "\n        " :=
  (C3_template "A" ["Q"]).1

/-- C7 amended witness: concrete log successes and failures behave as the
theorem states. -/
theorem C7_log_failure_propagates_witness :
    generate_response "r" (.ok ()) = .ok "r" ∧
    generate_embeddings [1] (.error "disk") = .error "disk" :=
  ⟨(C7_log_failure_propagates "r" [1] "disk").2.1,
   (C7_log_failure_propagates "r" [1] "disk").2.2.1⟩

/-- C8 amended witness: with one human turn the block is the bracketed
serialization and is nonempty. -/
theorem C8_history_block_witness :
    historyPreamble true [Msg.human "hi"] =
      "Here\u0027s the history of the current chat: [" ++
        String.intercalate "; " ([Msg.human "hi"].map Msg.serialized) ++ "]." ∧
    historyPreamble true [Msg.human "hi"] ≠ "" :=
  ⟨(C8_history_block [Msg.human "hi"] "q" []).1,
   (C8_history_block [Msg.human "hi"] "q" []).2.2.2⟩


end Alexupport
